import Mathlib

/-!
Loader database helpers (`loader/db.go`).

A shallow embedding of the database helpers of the loader: `executeSQL`,
`executeSQLImp`, `hasUniqIndex`, `truncateTable`, `createConn`, `createConns`
and `isErrDupEntry`.

The outside world (the MySQL server behind `*sql.DB`, `sql.Open`, `time.Sleep`)
is modelled by a history of calls: every call the code makes is appended to a
`Trace`, and the answer of the world to a call is an arbitrary function of the
history of calls made before it.  Quantifying over these functions quantifies
over every behaviour of the database.  Calls to the logger have no influence on
control flow and are not recorded.
-/

namespace Loader

/-! ## Errors -/

/-- Error values produced by `database/sql` and the MySQL driver. -/
inductive DriverErr where
  /-- A `*mysql.MySQLError` with its `Number` and `Message`. -/
  | mysqlError (number : Nat) (message : String)
  /-- Any other error of the driver or of `database/sql`. -/
  | other (message : String)
  deriving DecidableEq, Repr

/-- Non-nil Go `error` values that flow through the loader. -/
inductive Err where
  /-- An error handed out by `database/sql`. -/
  | driver (e : DriverErr)
  /-- The result of `errors.New(message)`. -/
  | new (message : String)
  /-- The result of `errors.Trace(previous)` for a non-nil `previous`. -/
  | trace (previous : Err)
  deriving DecidableEq, Repr

namespace errors

/-- The function `errors.Trace` of juju/errors: nil stays nil, anything else is wrapped. -/
def Trace : Option Err → Option Err
  | none => none
  | some e => some (Err.trace e)

/-- The function `errors.Cause` of juju/errors: the error below all `Trace` wrappers. -/
def Cause : Err → Err
  | Err.trace previous => Cause previous
  | e => e

end errors

/-- The method `Error()`: the message of an error value. -/
def Err.Error : Err → String
  | Err.driver (DriverErr.mysqlError number message) =>
      "Error " ++ toString number ++ ": " ++ message
  | Err.driver (DriverErr.other message) => message
  | Err.new message => message
  | Err.trace previous => previous.Error

/-- The constant `tmysql.ErrDupEntry` (MySQL error 1062, duplicate entry). -/
def ErrDupEntry : Nat := 1062

/-! ## The world -/

/-- The constant `time.Second`, in nanoseconds.  A `time.Duration` is modelled as an exact
integer number of nanoseconds; `2 * time.Duration(i) * time.Second` stays inside the int64
range of Go up to `i = 4611686018`. -/
def Second : Int := 1000000000

/-- One call made by the code to the outside world. -/
inductive Event where
  /-- The call `db.Begin()`. -/
  | begin
  /-- The call `txn.Exec(query)`. -/
  | exec (query : String)
  /-- The call `txn.Commit()`. -/
  | commit
  /-- The call `txn.Rollback()`. -/
  | rollback
  /-- The call `db.Query(query)`. -/
  | query (query : String)
  /-- The call `rows.Close()`. -/
  | closeRows
  /-- The call `time.Sleep(d)`. -/
  | sleep (d : Int)
  /-- The call `sql.Open(driverName, dataSourceName)`. -/
  | dbOpen (driverName : String) (dataSourceName : String)
  deriving DecidableEq, Repr

/-- The history of calls made so far, oldest first. -/
abbrev Trace := List Event

/-- A result set `*sql.Rows`, as the code observes it. -/
structure Rows where
  /-- The result of `rows.Columns()`. -/
  columns : Except DriverErr (List String)
  /-- The rows for which `rows.Next()` returns true, each with the result of `rows.Scan`:
  an error, or the column values as strings (NULL is the empty string). -/
  scans : List (Except DriverErr (List String))
  /-- The result of `rows.Err()` once `rows.Next()` has returned false. -/
  err : Option DriverErr

/-- A handle `*sql.DB`: how the database answers each call, given the calls made before. -/
structure Database where
  /-- The error of `db.Begin()`. -/
  begin : Trace → Option DriverErr
  /-- The error of `txn.Exec(query)`. -/
  exec : Trace → String → Option DriverErr
  /-- The error of `txn.Commit()`. -/
  commit : Trace → Option DriverErr
  /-- The error of `txn.Rollback()`. -/
  rollback : Trace → Option DriverErr
  /-- The result of `db.Query(query)`. -/
  query : Trace → String → Except DriverErr Rows

/-- A live DB connection (`type Conn struct`). -/
structure Conn where
  db : Database

/-- The DB configuration (`type DBConfig struct`). -/
structure DBConfig where
  Host : String
  User : String
  Password : String
  Port : Int

/-! ## `executeSQLImp` -/

/-- The session statement that `executeSQLImp` issues first in its transaction. -/
def sessionStmt (skipConstraintCheck : Bool) : String :=
  if skipConstraintCheck then "set @@session.tidb_skip_constraint_check=1;"
  else "set @@session.tidb_skip_constraint_check=0;"

/-- The loop `for i := range sqls` of `executeSQLImp`: `some err` is the early
`return err` after the rollback, `none` means the loop ran to its end. -/
def executeSQLImp.loop (db : Database) : List String → Trace → Option Err × Trace
  | [], h => (none, h)
  | sql :: rest, h =>
    match db.exec h sql with
    | some err =>
      let h1 := h ++ [Event.exec sql]
      -- rerr := txn.Rollback(); a non-nil rerr is only logged
      let _rerr := db.rollback h1
      (some (Err.driver err), h1 ++ [Event.rollback])
    | none => executeSQLImp.loop db rest (h ++ [Event.exec sql])

/-- The function `executeSQLImp`: one transaction that sets the session flag, runs the
statements and commits.  Returns the returned error and the extended history. -/
def executeSQLImp (db : Database) (sqls : List String) (skipConstraintCheck : Bool)
    (h : Trace) : Option Err × Trace :=
  match db.begin h with
  | some err => (some (Err.driver err), h ++ [Event.begin])
  | none =>
    let h1 := h ++ [Event.begin]
    match db.exec h1 (sessionStmt skipConstraintCheck) with
    | some err => (some (Err.driver err), h1 ++ [Event.exec (sessionStmt skipConstraintCheck)])
    | none =>
      let h2 := h1 ++ [Event.exec (sessionStmt skipConstraintCheck)]
      match executeSQLImp.loop db sqls h2 with
      | (some err, h3) => (some err, h3)
      | (none, h3) =>
        match db.commit h3 with
        | some err => (some (Err.driver err), h3 ++ [Event.commit])
        | none => (none, h3 ++ [Event.commit])

/-! ## `isErrDupEntry` and `executeSQL` -/

/-- The function `isErrDupEntry`.  The helper `causeErr` is defined outside the two source
files and is taken as a parameter. -/
def isErrDupEntry (causeErr : Option Err → Option Err) (err : Option Err) : Bool :=
  match causeErr err with
  | some (Err.driver (DriverErr.mysqlError number _)) => number == ErrDupEntry
  | _ => false

/-- The loop `for i := 0; i < retryCount; i++` of `executeSQL`, by recursion on the number
`retryCount - i` of iterations that remain; when none remains the function returns
`errors.Trace(err)`. -/
def executeSQL.loop (causeErr : Option Err → Option Err) (conn : Conn) (sqls : List String) :
    Nat → Nat → Bool → Option Err → Trace → Option Err × Trace
  | 0, _, _, err, h => (errors.Trace err, h)
  | remaining + 1, i, skipConstraintCheck, _, h =>
    let h1 := if i > 0 then h ++ [Event.sleep (2 * (i : Int) * Second)] else h
    -- retry can not skip constraint check.
    let skipConstraintCheck := if i > 0 then false else skipConstraintCheck
    match executeSQLImp conn.db sqls skipConstraintCheck h1 with
    | (some err, h2) =>
      if !isErrDupEntry causeErr (some err) then
        executeSQL.loop causeErr conn sqls remaining (i + 1) skipConstraintCheck (some err) h2
      else (none, h2)
    | (none, h2) => (none, h2)

/-- The function `executeSQL`.  The package constant `maxRetryCount`, an attempt count,
is declared outside the two source files and is taken as a parameter. -/
def executeSQL (maxRetryCount : Nat) (causeErr : Option Err → Option Err) (conn : Conn)
    (sqls : List String) (enableRetry : Bool) (skipConstraintCheck : Bool) (h : Trace) :
    Option Err × Trace :=
  if sqls.length = 0 then (none, h)
  else
    let retryCount := if enableRetry then maxRetryCount else 1
    executeSQL.loop causeErr conn sqls retryCount 0 skipConstraintCheck none h

/-! ## `querySQL`, `hasUniqIndex` and `truncateTable` -/

/-- The function `querySQL`: the rows, or the traced error of `db.Query`. -/
def querySQL (db : Database) (query : String) (h : Trace) : Except Err Rows × Trace :=
  match db.query h query with
  | Except.error err => (Except.error (Err.trace (Err.driver err)), h ++ [Event.query query])
  | Except.ok rows => (Except.ok rows, h ++ [Event.query query])

/-- The loop `for rows.Next()` of `hasUniqIndex` and the check of `rows.Err()` after it, for
a result set of `n` columns.  The value `none` is the run-time panic of `datas[1]` when
there are fewer than two columns. -/
def hasUniqIndex.loop (n : Nat) :
    List (Except DriverErr (List String)) → Option DriverErr → Option (Bool × Option Err)
  | [], rowsErr =>
    match rowsErr with
    | some err => some (false, errors.Trace (some (Err.driver err)))
    | none => some (false, none)
  | scan :: rest, rowsErr =>
    match scan with
    | Except.error err => some (false, errors.Trace (some (Err.driver err)))
    | Except.ok vals =>
      -- datas := make([]sql.RawBytes, len(rowColumns)), filled by rows.Scan
      let datas := (List.range n).map (fun i => vals.getD i "")
      match datas[1]? with
      | none => none
      | some nonUnique =>
        if nonUnique = "0" then some (true, none) else hasUniqIndex.loop n rest rowsErr

/-- The function `hasUniqIndex`.  The route resolver `fetchMatchedLiteral` is defined
outside the two source files and is taken as a parameter (a pure function).  The result
`none` is a run-time panic. -/
def hasUniqIndex {Router : Type}
    (fetchMatchedLiteral : Router → String → String → String × String)
    (conn : Conn) (schema : String) (table : String) (tableRouter : Router) (h : Trace) :
    Option (Bool × Option Err) × Trace :=
  if schema = "" ∨ table = "" then
    (some (false, some (Err.new "schema/table is empty")), h)
  else
    let target := fetchMatchedLiteral tableRouter schema table
    let query := "show index from " ++ target.1 ++ "." ++ target.2
    match querySQL conn.db query h with
    | (Except.error err, h1) => (some (false, errors.Trace (some err)), h1)
    | (Except.ok rows, h1) =>
      -- defer rows.Close()
      match rows.columns with
      | Except.error err =>
        (some (false, errors.Trace (some (Err.driver err))), h1 ++ [Event.closeRows])
      | Except.ok rowColumns =>
        (hasUniqIndex.loop rowColumns.length rows.scans rows.err, h1 ++ [Event.closeRows])

/-- The function `truncateTable`. -/
def truncateTable (conn : Conn) (schema : String) (table : String) (h : Trace) :
    Option Err × Trace :=
  if schema = "" ∨ table = "" then
    (some (Err.new "schema/table is empty"), h)
  else
    let query := "truncate table `" ++ schema ++ "`.`" ++ table ++ "`;"
    match querySQL conn.db query h with
    | (Except.error err, h1) => (errors.Trace (some err), h1)
    | (Except.ok _, h1) =>
      -- defer rows.Close()
      (none, h1 ++ [Event.closeRows])

/-! ## `createConn` and `createConns` -/

/-- The data source name that `createConn` builds from the configuration. -/
def createConn.dbDSN (cfg : DBConfig) : String :=
  cfg.User ++ ":" ++ cfg.Password ++ "@tcp(" ++ cfg.Host ++ ":" ++ toString cfg.Port
    ++ ")/?charset=utf8"

/-- The function `createConn`; `sqlOpen` is the answer of `sql.Open`, given the calls made
before.  `Except.error err` is the pair `(nil, err)`. -/
def createConn (sqlOpen : Trace → String → String → Except DriverErr Database)
    (cfg : DBConfig) (h : Trace) : Except Err Conn × Trace :=
  match sqlOpen h "mysql" (createConn.dbDSN cfg) with
  | Except.error err =>
    (Except.error (Err.trace (Err.driver err)),
      h ++ [Event.dbOpen "mysql" (createConn.dbDSN cfg)])
  | Except.ok db => (Except.ok ⟨db⟩, h ++ [Event.dbOpen "mysql" (createConn.dbDSN cfg)])

/-- The loop `for i := 0; i < count; i++` of `createConns`, by recursion on the number of
iterations that remain.  The result is the returned pair: the slice (`none` is the nil
slice) and the error. -/
def createConns.loop (sqlOpen : Trace → String → String → Except DriverErr Database)
    (cfg : DBConfig) :
    Nat → List Conn → Trace → (Option (List Conn) × Option Err) × Trace
  | 0, conns, h => ((some conns, none), h)
  | remaining + 1, conns, h =>
    match createConn sqlOpen cfg h with
    | (Except.error err, h1) => ((none, errors.Trace (some err)), h1)
    | (Except.ok conn, h1) => createConns.loop sqlOpen cfg remaining (conns ++ [conn]) h1

/-- The function `createConns`, for a count that is not negative. -/
def createConns (sqlOpen : Trace → String → String → Except DriverErr Database)
    (cfg : DBConfig) (count : Nat) (h : Trace) :
    (Option (List Conn) × Option Err) × Trace :=
  createConns.loop sqlOpen cfg count [] h

/-! ## Histories used in the statements -/

/-- The history at the moment statement number `k` of `sqls` is executed by the
transaction that `executeSQLImp` started at history `h`: `Begin`, the session statement and
the first `k` statements have been issued. -/
def stmtHistory (h : Trace) (skipConstraintCheck : Bool) (sqls : List String) (k : Nat) :
    Trace :=
  h ++ [Event.begin, Event.exec (sessionStmt skipConstraintCheck)]
    ++ (sqls.take k).map Event.exec

/-- The calls that `executeSQL` makes at the top of iteration `i`, before the attempt:
nothing for `i = 0`, one `time.Sleep(2 * time.Duration(i) * time.Second)` for `i > 0`. -/
def sleepBefore (i : Nat) : Trace :=
  if i > 0 then [Event.sleep (2 * (i : Int) * Second)] else []

/-- The value of `skipConstraintCheck` with which iteration `i` of `executeSQL` calls
`executeSQLImp`, for the value `skip` given by the caller. -/
def attemptFlag (skip : Bool) (i : Nat) : Bool :=
  if i > 0 then false else skip

/-- The history at the top of iteration `i` of the loop of `executeSQL` started at history
`h0`, when the attempts `0, ..., i-1` have all been made and retried. -/
def attemptStart (conn : Conn) (sqls : List String) (skip : Bool) (h0 : Trace) : Nat → Trace
  | 0 => h0
  | i + 1 =>
    (executeSQLImp conn.db sqls (attemptFlag skip i)
      (attemptStart conn sqls skip h0 i ++ sleepBefore i)).2

/-- The result of attempt `i`: the call of `executeSQLImp` made by iteration `i` of
`executeSQL` when the attempts `0, ..., i-1` have all been made and retried. -/
def attemptResult (conn : Conn) (sqls : List String) (skip : Bool) (h0 : Trace) (i : Nat) :
    Option Err × Trace :=
  executeSQLImp conn.db sqls (attemptFlag skip i)
    (attemptStart conn sqls skip h0 i ++ sleepBefore i)

/-- The calls that mark the schedule of `executeSQL`: `Begin`, the first call of every
attempt, and `time.Sleep`. -/
def isBeginOrSleep : Event → Bool
  | Event.begin => true
  | Event.sleep _ => true
  | _ => false

/-- A trace `l` recorded after history `hist`, in which `c` attempts were made, issues the
right session statement after every successful `Begin`. -/
def SessionStmtsOk (db : Database) (skip : Bool) (hist : Trace) (c : Nat) (l : Trace) : Prop :=
  ∀ p, l[p]? = some Event.begin → db.begin (hist ++ l.take p) = none →
    l[p + 1]? = some (Event.exec
      (sessionStmt (skip && decide (c + (l.take p).count Event.begin = 0))))

/-- The string in the second column (`Non_unique`) of a scanned row is `"0"`. -/
def rowIsUnique : Except DriverErr (List String) → Bool
  | Except.ok vals => vals[1]? == some "0"
  | Except.error _ => false

/-- The call of `sql.Open` that `createConn` makes for the configuration `cfg`. -/
def openEvent (cfg : DBConfig) : Event :=
  Event.dbOpen "mysql" (createConn.dbDSN cfg)

/-! ## Example databases -/

/-- A database on which everything succeeds except the statement `"b"`, which raises a
duplicate-entry error, and `Rollback`, which fails as well. -/
def dbFailsOnB : Database where
  begin := fun _ => none
  exec := fun _ q => if q = "b" then some (DriverErr.mysqlError 1062 "Duplicate entry") else none
  commit := fun _ => none
  rollback := fun _ => some (DriverErr.other "invalid connection")
  query := fun _ _ => Except.error (DriverErr.other "unused")

/-- A database on which `Begin` succeeds and every `Exec`, the session statement included,
fails. -/
def dbExecFails : Database where
  begin := fun _ => none
  exec := fun _ _ => some (DriverErr.other "invalid connection")
  commit := fun _ => none
  rollback := fun _ => none
  query := fun _ _ => Except.error (DriverErr.other "unused")

/-- A database on which the first two transactions fail at the session statement with a
lost connection and every later statement `"b"` raises a duplicate-entry error. -/
def dbDupOnThird : Database where
  begin := fun _ => none
  exec := fun h q =>
    if h.count Event.begin < 3 then some (DriverErr.other "invalid connection")
    else if q = "b" then some (DriverErr.mysqlError 1062 "Duplicate entry") else none
  commit := fun _ => none
  rollback := fun _ => none
  query := fun _ _ => Except.error (DriverErr.other "unused")

/-- An instance of the helper `causeErr`, used in the examples: the cause of a non-nil
error as `errors.Cause` gives it. -/
def causeErrExample (err : Option Err) : Option Err :=
  err.map errors.Cause

/-- The result set of `show index from test.t` for a table with a primary key on `a` and
a plain index on `c`. -/
def showIndexRows : Rows where
  columns := Except.ok ["Table", "Non_unique", "Key_name", "Seq_in_index", "Column_name"]
  scans := [Except.ok ["t", "1", "idx_c", "1", "c"], Except.ok ["t", "0", "PRIMARY", "1", "a"]]
  err := none

/-- A database that answers every query with `showIndexRows`. -/
def dbShowIndex : Database where
  begin := fun _ => none
  exec := fun _ _ => none
  commit := fun _ => none
  rollback := fun _ => none
  query := fun _ _ => Except.ok showIndexRows

/-- A database on which every query fails. -/
def dbQueryFails : Database where
  begin := fun _ => none
  exec := fun _ _ => none
  commit := fun _ => none
  rollback := fun _ => none
  query := fun _ _ => Except.error (DriverErr.other "invalid connection")

/-- A route resolver without rules: every table is its own target. -/
def identityRoute (_ : Unit) (schema : String) (table : String) : String × String :=
  (schema, table)

/-- A configuration, the defaults of the command line. -/
def defaultDBConfig : DBConfig where
  Host := "127.0.0.1"
  User := "root"
  Password := ""
  Port := 4000

/-- An `sql.Open` that always succeeds, with the handle `dbShowIndex`. -/
def sqlOpenOk (_ : Trace) (_ : String) (_ : String) : Except DriverErr Database :=
  Except.ok dbShowIndex

/-- An `sql.Open` that succeeds twice and fails from the third call on. -/
def sqlOpenFailsThird (h : Trace) (_ : String) (_ : String) : Except DriverErr Database :=
  if h.length < 2 then Except.ok dbShowIndex
  else Except.error (DriverErr.other "sql: unknown driver")

/-! ## Lemmas on `executeSQLImp` -/

theorem loop_all_ok (db : Database) (sqls : List String) (h : Trace)
    (hok : ∀ k s, sqls[k]? = some s → db.exec (h ++ (sqls.take k).map Event.exec) s = none) :
    executeSQLImp.loop db sqls h = (none, h ++ sqls.map Event.exec) := by
  induction sqls generalizing h with
  | nil => simp [executeSQLImp.loop]
  | cons sql rest ih =>
    have h0 : db.exec h sql = none := by
      have := hok 0 sql (by simp)
      simpa using this
    have hrest : ∀ k s, rest[k]? = some s →
        db.exec ((h ++ [Event.exec sql]) ++ (rest.take k).map Event.exec) s = none := by
      intro k s hk
      have := hok (k + 1) s (by simpa using hk)
      simpa using this
    simp [executeSQLImp.loop, h0, ih _ hrest]

theorem loop_first_failure (db : Database) (sqls : List String) (h : Trace) (k : Nat)
    (s : String) (e : DriverErr) (hk : sqls[k]? = some s)
    (hok : ∀ j t, j < k → sqls[j]? = some t →
      db.exec (h ++ (sqls.take j).map Event.exec) t = none)
    (hfail : db.exec (h ++ (sqls.take k).map Event.exec) s = some e) :
    executeSQLImp.loop db sqls h
      = (some (Err.driver e), h ++ (sqls.take (k + 1)).map Event.exec ++ [Event.rollback]) := by
  induction sqls generalizing h k with
  | nil => simp at hk
  | cons sql rest ih =>
    cases k with
    | zero =>
      simp at hk
      subst hk
      simp at hfail
      simp [executeSQLImp.loop, hfail]
    | succ k =>
      have h0 : db.exec h sql = none := by
        have := hok 0 sql (Nat.succ_pos k) (by simp)
        simpa using this
      have hk2 : rest[k]? = some s := by simpa using hk
      have hok2 : ∀ j t, j < k → rest[j]? = some t →
          db.exec ((h ++ [Event.exec sql]) ++ (rest.take j).map Event.exec) t = none := by
        intro j t hj ht
        have := hok (j + 1) t (Nat.succ_lt_succ hj) (by simpa using ht)
        simpa using this
      have hfail2 : db.exec ((h ++ [Event.exec sql]) ++ (rest.take k).map Event.exec) s
          = some e := by
        simpa using hfail
      simp [executeSQLImp.loop, h0, ih _ k hk2 hok2 hfail2]

theorem loop_cases (db : Database) (sqls : List String) (h : Trace) :
    (∀ k s, sqls[k]? = some s → db.exec (h ++ (sqls.take k).map Event.exec) s = none)
    ∨ ∃ k s e, sqls[k]? = some s
        ∧ (∀ j t, j < k → sqls[j]? = some t →
            db.exec (h ++ (sqls.take j).map Event.exec) t = none)
        ∧ db.exec (h ++ (sqls.take k).map Event.exec) s = some e := by
  induction sqls generalizing h with
  | nil => left; intro k s hk; simp at hk
  | cons sql rest ih =>
    cases h0 : db.exec h sql with
    | some e =>
      right
      refine ⟨0, sql, e, by simp, ?_, by simpa using h0⟩
      intro j t hj
      omega
    | none =>
      rcases ih (h ++ [Event.exec sql]) with hall | ⟨k, s, e, hk, hok, hfail⟩
      · left
        intro k s hk
        cases k with
        | zero =>
          simp at hk
          subst hk
          simpa using h0
        | succ k =>
          have := hall k s (by simpa using hk)
          simpa using this
      · right
        refine ⟨k + 1, s, e, by simpa using hk, ?_, by simpa using hfail⟩
        intro j t hj ht
        cases j with
        | zero =>
          simp at ht
          subst ht
          simpa using h0
        | succ j =>
          have := hok j t (by omega) (by simpa using ht)
          simpa using this

/-- The four ways in which `executeSQLImp` can run: `Begin` fails, the session statement
fails, a first statement fails, or every statement succeeds and `Commit` is called. -/
theorem executeSQLImp_cases (db : Database) (sqls : List String) (skip : Bool) (h : Trace) :
    (∃ e, db.begin h = some e
        ∧ executeSQLImp db sqls skip h = (some (Err.driver e), h ++ [Event.begin]))
    ∨ (db.begin h = none ∧ ∃ e, db.exec (h ++ [Event.begin]) (sessionStmt skip) = some e
        ∧ executeSQLImp db sqls skip h
          = (some (Err.driver e), h ++ [Event.begin, Event.exec (sessionStmt skip)]))
    ∨ (db.begin h = none ∧ db.exec (h ++ [Event.begin]) (sessionStmt skip) = none
        ∧ ∃ k s e, sqls[k]? = some s
          ∧ (∀ j t, j < k → sqls[j]? = some t → db.exec (stmtHistory h skip sqls j) t = none)
          ∧ db.exec (stmtHistory h skip sqls k) s = some e
          ∧ executeSQLImp db sqls skip h
            = (some (Err.driver e), stmtHistory h skip sqls (k + 1) ++ [Event.rollback]))
    ∨ (db.begin h = none ∧ db.exec (h ++ [Event.begin]) (sessionStmt skip) = none
        ∧ (∀ k s, sqls[k]? = some s → db.exec (stmtHistory h skip sqls k) s = none)
        ∧ executeSQLImp db sqls skip h
          = ((db.commit (stmtHistory h skip sqls sqls.length)).map Err.driver,
              stmtHistory h skip sqls sqls.length ++ [Event.commit])) := by
  cases hb : db.begin h with
  | some e => left; exact ⟨e, rfl, by simp [executeSQLImp, hb]⟩
  | none =>
    right
    cases hs : db.exec (h ++ [Event.begin]) (sessionStmt skip) with
    | some e => left; exact ⟨rfl, e, rfl, by simp [executeSQLImp, hb, hs]⟩
    | none =>
      right
      have hh : ∀ k, stmtHistory h skip sqls k
          = (h ++ [Event.begin, Event.exec (sessionStmt skip)])
            ++ (sqls.take k).map Event.exec := fun _ => rfl
      have hpre : h ++ [Event.begin] ++ [Event.exec (sessionStmt skip)]
          = h ++ [Event.begin, Event.exec (sessionStmt skip)] := by simp
      rcases loop_cases db sqls (h ++ [Event.begin, Event.exec (sessionStmt skip)])
        with hall | ⟨k, s, e, hk, hok, hfail⟩
      · right
        have hl := loop_all_ok db sqls _ hall
        refine ⟨rfl, rfl, ?_, ?_⟩
        · intro k s hk; rw [hh]; exact hall k s hk
        · rw [hh, List.take_length]
          simp only [executeSQLImp, hb, hs, hpre, hl]
          cases hc : db.commit (h ++ [Event.begin, Event.exec (sessionStmt skip)]
              ++ sqls.map Event.exec) with
          | some e => rfl
          | none => rfl
      · left
        have hl := loop_first_failure db sqls _ k s e hk hok hfail
        refine ⟨rfl, rfl, k, s, e, hk, ?_, ?_, ?_⟩
        · intro j t hj ht; rw [hh]; exact hok j t hj ht
        · rw [hh]; exact hfail
        · rw [hh]; simp only [executeSQLImp, hb, hs, hpre, hl]

theorem stmtHistory_eq (h : Trace) (skip : Bool) (sqls : List String) (k : Nat) :
    stmtHistory h skip sqls k
      = h ++ ([Event.begin, Event.exec (sessionStmt skip)] ++ (sqls.take k).map Event.exec) := by
  simp [stmtHistory]

/-! ## Claims on `executeSQLImp` -/

/-- C4: `executeSQLImp` calls `Commit` if and only if `Begin`, the session statement and
every statement of the list succeeded; it calls `Commit` at most once and never together
with `Rollback`; and it returns nil if and only if `Commit` was called, as the last call,
and succeeded.  Here `new` are the calls made by this invocation. -/
theorem executeSQLImp_commit_iff_all_succeed (db : Database) (sqls : List String)
    (skip : Bool) (h : Trace) :
    let r := executeSQLImp db sqls skip h
    let new := r.2.drop h.length
    r.2 = h ++ new
    ∧ (Event.commit ∈ new ↔
        (db.begin h = none ∧ db.exec (h ++ [Event.begin]) (sessionStmt skip) = none
          ∧ ∀ k s, sqls[k]? = some s → db.exec (stmtHistory h skip sqls k) s = none))
    ∧ new.count Event.commit ≤ 1
    ∧ ¬ (Event.commit ∈ new ∧ Event.rollback ∈ new)
    ∧ (r.1 = none ↔ ∃ pre, new = pre ++ [Event.commit] ∧ db.commit (h ++ pre) = none) := by
  intro r new
  rcases executeSQLImp_cases db sqls skip h with
    ⟨e, hb, hr⟩ | ⟨hb, e, hs, hr⟩ | ⟨hb, hs, k, s, e, hk, hok, hfail, hr⟩ | ⟨hb, hs, hall, hr⟩
  · have hnew : new = [Event.begin] := by simp [new, r, hr]
    have hr1 : r.1 = some (Err.driver e) := by simp [r, hr]
    have hr2 : r.2 = h ++ [Event.begin] := by simp [r, hr]
    rw [hnew, hr1, hr2]
    refine ⟨rfl, ?_, by simp, by simp, ?_⟩
    · simp [hb]
    · constructor
      · intro hc; cases hc
      · rintro ⟨pre, hpre, -⟩
        have : Event.commit ∈ [Event.begin] := by rw [hpre]; simp
        simp at this
  · have hnew : new = [Event.begin, Event.exec (sessionStmt skip)] := by simp [new, r, hr]
    have hr1 : r.1 = some (Err.driver e) := by simp [r, hr]
    have hr2 : r.2 = h ++ [Event.begin, Event.exec (sessionStmt skip)] := by simp [r, hr]
    rw [hnew, hr1, hr2]
    refine ⟨rfl, ?_, by simp, by simp, ?_⟩
    · simp [hs]
    · constructor
      · intro hc; cases hc
      · rintro ⟨pre, hpre, -⟩
        have : Event.commit ∈ [Event.begin, Event.exec (sessionStmt skip)] := by
          rw [hpre]; simp
        simp at this
  · have hnew : new = [Event.begin, Event.exec (sessionStmt skip)]
        ++ (sqls.take (k + 1)).map Event.exec ++ [Event.rollback] := by
      simp [new, r, hr, stmtHistory_eq]
    have hr1 : r.1 = some (Err.driver e) := by simp [r, hr]
    have hr2 : r.2 = h ++ ([Event.begin, Event.exec (sessionStmt skip)]
        ++ (sqls.take (k + 1)).map Event.exec ++ [Event.rollback]) := by
      simp [r, hr, stmtHistory_eq]
    have hnc : Event.commit ∉ [Event.begin, Event.exec (sessionStmt skip)]
        ++ (sqls.take (k + 1)).map Event.exec ++ [Event.rollback] := by
      intro hm
      rcases List.mem_append.1 hm with hm | hm
      · rcases List.mem_append.1 hm with hm | hm
        · simp at hm
        · rcases List.mem_map.1 hm with ⟨_, _, hx⟩
          cases hx
      · simp at hm
    rw [hnew, hr1, hr2]
    refine ⟨rfl, ?_, ?_, ?_, ?_⟩
    · constructor
      · intro hc; exact absurd hc hnc
      · rintro ⟨-, -, hall⟩
        have := hall k s hk
        rw [hfail] at this
        cases this
    · rw [List.count_eq_zero_of_not_mem hnc]; exact Nat.zero_le _
    · intro hc; exact hnc hc.1
    · constructor
      · intro hc; cases hc
      · rintro ⟨pre, hpre, -⟩
        exact absurd (by rw [hpre]; simp) hnc
  · have hnew : new = [Event.begin, Event.exec (sessionStmt skip)]
        ++ sqls.map Event.exec ++ [Event.commit] := by
      simp [new, r, hr, stmtHistory_eq]
    have hr1 : r.1 = (db.commit (stmtHistory h skip sqls sqls.length)).map Err.driver := by
      simp [r, hr]
    have hr2 : r.2 = h ++ ([Event.begin, Event.exec (sessionStmt skip)]
        ++ sqls.map Event.exec ++ [Event.commit]) := by
      simp [r, hr, stmtHistory_eq]
    have hhist : stmtHistory h skip sqls sqls.length
        = h ++ ([Event.begin, Event.exec (sessionStmt skip)] ++ sqls.map Event.exec) := by
      simp [stmtHistory_eq]
    rw [hnew, hr1, hr2]
    refine ⟨rfl, ?_, ?_, ?_, ?_⟩
    · constructor
      · intro _; exact ⟨hb, hs, hall⟩
      · intro _; simp
    · simp [List.count_append, List.count_cons, List.count_eq_zero_of_not_mem]
    · simp
    · constructor
      · intro hc
        refine ⟨[Event.begin, Event.exec (sessionStmt skip)] ++ sqls.map Event.exec, rfl, ?_⟩
        rw [← hhist]
        cases hcm : db.commit (stmtHistory h skip sqls sqls.length) with
        | none => rfl
        | some e => rw [hcm] at hc; cases hc
      · rintro ⟨pre, hpre, hcm⟩
        have hpre2 : [Event.begin, Event.exec (sessionStmt skip)] ++ sqls.map Event.exec
            = pre := List.append_inj_left hpre (by
              have := congrArg List.length hpre
              simpa using this)
        rw [hhist, hpre2, hcm]
        rfl

/-- C5: when `Begin`, the session statement and `sqls[0..k-1]` succeed and `sqls[k]` fails
with error `e`, the calls of `executeSQLImp` are `Begin`, the session statement,
`sqls[0], ..., sqls[k]` in list order and then one `Rollback`, nothing else, and the
returned error is exactly `e`, whatever `Rollback` answers. -/
theorem executeSQLImp_rollback_on_first_failure (db : Database) (sqls : List String)
    (skip : Bool) (h : Trace) (k : Nat) (s : String) (e : DriverErr)
    (hb : db.begin h = none)
    (hs : db.exec (h ++ [Event.begin]) (sessionStmt skip) = none)
    (hk : sqls[k]? = some s)
    (hok : ∀ j t, j < k → sqls[j]? = some t → db.exec (stmtHistory h skip sqls j) t = none)
    (hfail : db.exec (stmtHistory h skip sqls k) s = some e) :
    executeSQLImp db sqls skip h
      = (some (Err.driver e),
          h ++ [Event.begin, Event.exec (sessionStmt skip)]
            ++ (sqls.take (k + 1)).map Event.exec ++ [Event.rollback])
    ∧ ((executeSQLImp db sqls skip h).2.drop h.length).count Event.rollback = 1 := by
  have hl := loop_first_failure db sqls (h ++ [Event.begin, Event.exec (sessionStmt skip)])
    k s e hk hok hfail
  have hpre : h ++ [Event.begin] ++ [Event.exec (sessionStmt skip)]
      = h ++ [Event.begin, Event.exec (sessionStmt skip)] := by simp
  have hr : executeSQLImp db sqls skip h
      = (some (Err.driver e),
          h ++ [Event.begin, Event.exec (sessionStmt skip)]
            ++ (sqls.take (k + 1)).map Event.exec ++ [Event.rollback]) := by
    simp only [executeSQLImp, hb, hs, hpre, hl]
  refine ⟨hr, ?_⟩
  rw [hr]
  have hnr : Event.rollback ∉ (sqls.take (k + 1)).map Event.exec := by
    intro hm
    rcases List.mem_map.1 hm with ⟨_, _, hx⟩
    cases hx
  simp only [List.append_assoc, List.drop_left, List.count_append,
    List.count_eq_zero_of_not_mem hnr]
  simp

/-- Witness for C5: on `dbFailsOnB` the list `["a", "b", "c"]` stops at `"b"`. -/
theorem executeSQLImp_rollback_on_first_failure_witness :
    executeSQLImp dbFailsOnB ["a", "b", "c"] true []
      = (some (Err.driver (DriverErr.mysqlError 1062 "Duplicate entry")),
          [] ++ [Event.begin, Event.exec (sessionStmt true)]
            ++ (["a", "b", "c"].take (1 + 1)).map Event.exec ++ [Event.rollback])
    ∧ ((executeSQLImp dbFailsOnB ["a", "b", "c"] true []).2.drop
        ([] : Trace).length).count Event.rollback = 1 :=
  executeSQLImp_rollback_on_first_failure dbFailsOnB ["a", "b", "c"] true [] 1 "b"
    (DriverErr.mysqlError 1062 "Duplicate entry") rfl (by decide) rfl
    (by
      intro j t hj ht
      obtain rfl : j = 0 := by omega
      obtain rfl : "a" = t := by simpa using ht
      decide)
    (by decide)

/-- C9 (the code leaves the transaction open): on `dbExecFails`, where `Begin` succeeds
and the session statement fails, `executeSQLImp` returns the error after the two calls
`Begin` and `Exec`, having called neither `Commit` nor `Rollback`. -/
theorem executeSQLImp_session_failure_no_rollback :
    dbExecFails.begin [] = none
    ∧ executeSQLImp dbExecFails ["insert into t values (1);"] true []
      = (some (Err.driver (DriverErr.other "invalid connection")),
          [Event.begin, Event.exec "set @@session.tidb_skip_constraint_check=1;"])
    ∧ Event.commit ∉ (executeSQLImp dbExecFails ["insert into t values (1);"] true []).2
    ∧ Event.rollback ∉ (executeSQLImp dbExecFails ["insert into t values (1);"] true []).2 := by
  decide

/-! ## Lemmas on `executeSQL` -/

/-- The calls of one invocation of `executeSQLImp`: `Begin` first, then calls that are
neither `Begin` nor `time.Sleep`, the first of which is the session statement when `Begin`
succeeded; the returned error is an unwrapped driver error. -/
theorem executeSQLImp_shape (db : Database) (sqls : List String) (skip : Bool) (h : Trace) :
    ∃ tail, (executeSQLImp db sqls skip h).2 = h ++ Event.begin :: tail
      ∧ (∀ ev ∈ tail, isBeginOrSleep ev = false)
      ∧ (db.begin h = none → tail.head? = some (Event.exec (sessionStmt skip)))
      ∧ (∀ e, (executeSQLImp db sqls skip h).1 = some e → ∃ d, e = Err.driver d) := by
  have hmap : ∀ (l : List String), ∀ ev ∈ l.map Event.exec, isBeginOrSleep ev = false := by
    intro l ev hm
    rcases List.mem_map.1 hm with ⟨_, _, rfl⟩
    rfl
  rcases executeSQLImp_cases db sqls skip h with
    ⟨e, hb, hr⟩ | ⟨hb, e, hs, hr⟩ | ⟨hb, hs, k, s, e, hk, hok, hfail, hr⟩ | ⟨hb, hs, hall, hr⟩
  · refine ⟨[], by simp [hr], by simp, by simp [hb], ?_⟩
    intro e1 he1
    exact ⟨e, by simpa [hr] using he1.symm⟩
  · refine ⟨[Event.exec (sessionStmt skip)], by simp [hr], ?_, by simp, ?_⟩
    · intro ev hm
      simp at hm
      subst hm
      rfl
    · intro e1 he1
      exact ⟨e, by simpa [hr] using he1.symm⟩
  · refine ⟨Event.exec (sessionStmt skip) :: ((sqls.take (k + 1)).map Event.exec
        ++ [Event.rollback]), ?_, ?_, by simp, ?_⟩
    · rw [hr, stmtHistory_eq]; simp
    · intro ev hm
      rcases List.mem_cons.1 hm with rfl | hm
      · rfl
      · rcases List.mem_append.1 hm with hm | hm
        · exact hmap _ ev hm
        · simp at hm
          subst hm
          rfl
    · intro e1 he1
      exact ⟨e, by simpa [hr] using he1.symm⟩
  · refine ⟨Event.exec (sessionStmt skip) :: (sqls.map Event.exec ++ [Event.commit]),
      ?_, ?_, by simp, ?_⟩
    · rw [hr, stmtHistory_eq]; simp
    · intro ev hm
      rcases List.mem_cons.1 hm with rfl | hm
      · rfl
      · rcases List.mem_append.1 hm with hm | hm
        · exact hmap _ ev hm
        · simp at hm
          subst hm
          rfl
    · intro e1 he1
      rw [hr] at he1
      cases hc : db.commit (stmtHistory h skip sqls sqls.length) with
      | none => rw [hc] at he1; cases he1
      | some d => exact ⟨d, by rw [hc] at he1; simpa using he1.symm⟩

theorem cause_trace_driver (d : DriverErr) :
    errors.Cause (Err.trace (Err.driver d)) = Err.driver d := rfl

/-- One iteration of the loop of `executeSQL`. -/
theorem executeSQL_loop_succ (causeErr : Option Err → Option Err) (conn : Conn)
    (sqls : List String) (n i : Nat) (sk : Bool) (err : Option Err) (h : Trace) :
    executeSQL.loop causeErr conn sqls (n + 1) i sk err h
      = match executeSQLImp conn.db sqls (if i > 0 then false else sk) (h ++ sleepBefore i) with
        | (some e, h2) =>
          if !isErrDupEntry causeErr (some e) then
            executeSQL.loop causeErr conn sqls n (i + 1) (if i > 0 then false else sk)
              (some e) h2
          else (none, h2)
        | (none, h2) => (none, h2) := by
  by_cases hi : i > 0 <;> simp [executeSQL.loop, sleepBefore, hi]

theorem attemptResult_eq (conn : Conn) (sqls : List String) (skip : Bool) (h0 : Trace)
    (i : Nat) (e : Option Err) (he : (attemptResult conn sqls skip h0 i).1 = e) :
    executeSQLImp conn.db sqls (attemptFlag skip i)
        (attemptStart conn sqls skip h0 i ++ sleepBefore i)
      = (e, attemptStart conn sqls skip h0 (i + 1)) := by
  rw [← he]
  rfl

/-- While the attempts fail with errors that are not duplicate-entry errors, the loop of
`executeSQL` reaches the top of iteration `i` with the history `attemptStart i` and, in
`err`, the error of attempt `i - 1`. -/
theorem executeSQL_loop_unroll (causeErr : Option Err → Option Err) (conn : Conn)
    (sqls : List String) (skip : Bool) (h0 : Trace) (i : Nat) :
    ∀ n, (∀ j, j < i → ∃ e, (attemptResult conn sqls skip h0 j).1 = some e
        ∧ isErrDupEntry causeErr (some e) = false) →
      ∃ sk err, (i = 0 → sk = skip)
        ∧ (∀ j, i = j + 1 → err = (attemptResult conn sqls skip h0 j).1)
        ∧ executeSQL.loop causeErr conn sqls (i + n) 0 skip none h0
          = executeSQL.loop causeErr conn sqls n i sk err (attemptStart conn sqls skip h0 i) := by
  induction i with
  | zero =>
    intro n _
    exact ⟨skip, none, fun _ => rfl, fun j hj => by omega, by simp [attemptStart]⟩
  | succ i ih =>
    intro n hfail
    obtain ⟨sk, err, hsk, -, heq⟩ := ih (n + 1) (fun j hj => hfail j (by omega))
    obtain ⟨e, he, hd⟩ := hfail i (Nat.lt_succ_self i)
    have hflag : (if i > 0 then false else sk) = attemptFlag skip i := by
      by_cases hi : i > 0
      · simp [attemptFlag, hi]
      · have : i = 0 := by omega
        simp [attemptFlag, hi, hsk this]
    refine ⟨attemptFlag skip i, some e, fun h => by omega, ?_, ?_⟩
    · intro j hj
      have : j = i := by omega
      subst this
      exact he.symm
    · have hn : i + 1 + n = i + (n + 1) := by omega
      rw [hn, heq, executeSQL_loop_succ, hflag, attemptResult_eq conn sqls skip h0 i _ he]
      simp [hd]

/-- Every `time.Sleep` of a trace is directly followed by a `Begin`. -/
theorem sleep_then_begin_append (a b : Trace)
    (ha : ∀ p d, a[p]? = some (Event.sleep d) → a[p + 1]? = some Event.begin)
    (hb : ∀ p d, b[p]? = some (Event.sleep d) → b[p + 1]? = some Event.begin)
    (hlast : ∀ d, a.getLast? ≠ some (Event.sleep d)) :
    ∀ p d, (a ++ b)[p]? = some (Event.sleep d) → (a ++ b)[p + 1]? = some Event.begin := by
  intro p d hp
  by_cases h1 : p + 1 < a.length
  · rw [List.getElem?_append_left (by omega)] at hp
    rw [List.getElem?_append_left h1]
    exact ha p d hp
  · by_cases h2 : p < a.length
    · exfalso
      rw [List.getElem?_append_left h2] at hp
      apply hlast d
      rw [List.getLast?_eq_getElem?]
      have : a.length - 1 = p := by omega
      rw [this]
      exact hp
    · rw [List.getElem?_append_right (by omega)] at hp
      rw [List.getElem?_append_right (by omega)]
      have : p + 1 - a.length = (p - a.length) + 1 := by omega
      rw [this]
      exact hb _ d hp

theorem filter_isBeginOrSleep_tail (tail : Trace)
    (htail : ∀ ev ∈ tail, isBeginOrSleep ev = false) :
    tail.filter isBeginOrSleep = [] := by
  rw [List.filter_eq_nil_iff]
  intro ev hm
  simp [htail ev hm]

theorem count_begin_tail (tail : Trace) (htail : ∀ ev ∈ tail, isBeginOrSleep ev = false) :
    tail.count Event.begin = 0 := by
  apply List.count_eq_zero_of_not_mem
  intro hm
  have := htail _ hm
  simp [isBeginOrSleep] at this

theorem no_sleep_tail (tail : Trace) (htail : ∀ ev ∈ tail, isBeginOrSleep ev = false)
    (p : Nat) (d : Int) : tail[p]? ≠ some (Event.sleep d) := by
  intro hp
  have hm : Event.sleep d ∈ tail := List.getElem?_mem hp
  have := htail _ hm
  simp [isBeginOrSleep] at this

/-- The calls of one iteration: the sleep, `Begin`, and the rest of the attempt. -/
theorem attempt_block_sleep_then_begin (i : Nat) (tail : Trace)
    (htail : ∀ ev ∈ tail, isBeginOrSleep ev = false) :
    ∀ p d, (sleepBefore i ++ Event.begin :: tail)[p]? = some (Event.sleep d) →
      (sleepBefore i ++ Event.begin :: tail)[p + 1]? = some Event.begin := by
  intro p d hp
  by_cases hi : i > 0
  · simp only [sleepBefore, hi, if_true] at hp ⊢
    cases p with
    | zero => simp
    | succ p =>
      cases p with
      | zero => simp at hp
      | succ p =>
        exfalso
        simp only [List.singleton_append, List.getElem?_cons_succ] at hp
        exact no_sleep_tail tail htail p d hp
  · simp only [sleepBefore, hi, if_false, List.nil_append] at hp ⊢
    cases p with
    | zero => simp at hp
    | succ p =>
      exfalso
      simp only [List.getElem?_cons_succ] at hp
      exact no_sleep_tail tail htail p d hp

theorem getLast?_block (a : Trace) (i : Nat) (tail : Trace)
    (htail : ∀ ev ∈ tail, isBeginOrSleep ev = false) (d : Int) :
    (a ++ (sleepBefore i ++ Event.begin :: tail)).getLast? ≠ some (Event.sleep d) := by
  intro hl
  have hm : Event.sleep d ∈ Event.begin :: tail := by
    rw [← List.append_assoc, List.getLast?_append_of_ne_nil _ (by simp)] at hl
    exact List.mem_of_mem_getLast? hl
  rcases List.mem_cons.1 hm with hx | hm
  · cases hx
  · have := htail _ hm
    simp [isBeginOrSleep] at this

theorem sleepBefore_begin (j : Nat) :
    sleepBefore j ++ [Event.begin]
      = if j = 0 then [Event.begin] else [Event.sleep (2 * (j : Int) * Second), Event.begin] := by
  by_cases hj : j = 0
  · simp [sleepBefore, hj]
  · have : j > 0 := by omega
    simp [sleepBefore, hj, this]

theorem filter_sleepBefore (j : Nat) :
    (sleepBefore j).filter isBeginOrSleep = sleepBefore j := by
  by_cases hj : j > 0 <;> simp [sleepBefore, hj, isBeginOrSleep]

theorem count_begin_sleepBefore (j : Nat) : (sleepBefore j).count Event.begin = 0 := by
  by_cases hj : j > 0 <;> simp [sleepBefore, hj]

/-- The shape of the history after `i` retried attempts. -/
theorem attemptStart_structure (conn : Conn) (sqls : List String) (skip : Bool) (h0 : Trace)
    (i : Nat) :
    ∃ new, attemptStart conn sqls skip h0 i = h0 ++ new
      ∧ new.count Event.begin = i
      ∧ new.filter isBeginOrSleep
        = (List.range i).flatMap (fun j =>
            if j = 0 then [Event.begin] else [Event.sleep (2 * (j : Int) * Second), Event.begin])
      ∧ (∀ p d, new[p]? = some (Event.sleep d) → new[p + 1]? = some Event.begin)
      ∧ (∀ d, new.getLast? ≠ some (Event.sleep d)) := by
  induction i with
  | zero => exact ⟨[], by simp [attemptStart], by simp, by simp, by simp, by simp⟩
  | succ i ih =>
    obtain ⟨new, hnew, hcount, hfilter, hadj, hlast⟩ := ih
    obtain ⟨tail, htrace, htail, -, -⟩ := executeSQLImp_shape conn.db sqls (attemptFlag skip i)
      (attemptStart conn sqls skip h0 i ++ sleepBefore i)
    refine ⟨new ++ (sleepBefore i ++ Event.begin :: tail), ?_, ?_, ?_, ?_, ?_⟩
    · show (executeSQLImp conn.db sqls (attemptFlag skip i)
        (attemptStart conn sqls skip h0 i ++ sleepBefore i)).2 = _
      rw [htrace, hnew]
      simp
    · rw [List.count_append, List.count_append, hcount, count_begin_sleepBefore,
        List.count_cons_self, count_begin_tail tail htail]
    · rw [List.filter_append, List.filter_append, hfilter, filter_sleepBefore,
        List.range_succ, List.flatMap_append]
      have hb : (Event.begin :: tail).filter isBeginOrSleep = [Event.begin] := by
        rw [List.filter_cons_of_pos (by rfl), filter_isBeginOrSleep_tail tail htail]
      rw [hb, sleepBefore_begin]
      simp
    · exact sleep_then_begin_append new _ hadj
        (attempt_block_sleep_then_begin i tail htail) hlast
    · intro d
      exact getLast?_block new i tail htail d

/-! ## Claims on `executeSQL` -/

/-- C2: with retries enabled and `maxRetryCount >= 1`, when every attempt fails with an
error that is not a duplicate-entry error, `executeSQL` makes exactly `maxRetryCount`
attempts (each attempt makes one `Begin` call, its first call), the `Begin` and `Sleep`
calls are, in order, `Begin` for attempt 0 and then `Sleep(2*i seconds)`, `Begin` for
`i = 1, ..., maxRetryCount-1`, every `Sleep` is directly followed by the `Begin` of the
attempt, and the result is `errors.Trace` of the error of the last attempt, whose cause is
that error. -/
theorem executeSQL_bounded_retry (maxRetryCount : Nat) (causeErr : Option Err → Option Err)
    (conn : Conn) (sqls : List String) (skip : Bool) (h0 : Trace)
    (hne : sqls ≠ []) (hmax : 1 ≤ maxRetryCount)
    (hfail : ∀ j, j < maxRetryCount → ∃ e, (attemptResult conn sqls skip h0 j).1 = some e
      ∧ isErrDupEntry causeErr (some e) = false) :
    let r := executeSQL maxRetryCount causeErr conn sqls true skip h0
    let new := r.2.drop h0.length
    r.2 = h0 ++ new
    ∧ new.count Event.begin = maxRetryCount
    ∧ new.filter isBeginOrSleep
      = (List.range maxRetryCount).flatMap (fun i =>
          if i = 0 then [Event.begin] else [Event.sleep (2 * (i : Int) * Second), Event.begin])
    ∧ (∀ p d, new[p]? = some (Event.sleep d) → new[p + 1]? = some Event.begin)
    ∧ ∃ e, (attemptResult conn sqls skip h0 (maxRetryCount - 1)).1 = some e
        ∧ r.1 = some (Err.trace e) ∧ errors.Cause (Err.trace e) = e := by
  intro r new
  obtain ⟨sk, err, -, herr, heq⟩ :=
    executeSQL_loop_unroll causeErr conn sqls skip h0 maxRetryCount 0 hfail
  obtain ⟨e, he, -⟩ := hfail (maxRetryCount - 1) (by omega)
  have herr2 : err = some e := by
    rw [herr (maxRetryCount - 1) (by omega)]
    exact he
  have hr : r = (some (Err.trace e), attemptStart conn sqls skip h0 maxRetryCount) := by
    have hlen : sqls.length ≠ 0 := by
      intro h
      exact hne (List.length_eq_zero.1 h)
    simp only [r, executeSQL, hlen, if_false, if_true]
    rw [Nat.add_zero] at heq
    rw [heq, herr2]
    rfl
  obtain ⟨nw, hnw, hcount, hfilter, hadj, -⟩ :=
    attemptStart_structure conn sqls skip h0 maxRetryCount
  have hnew : new = nw := by simp [new, hr, hnw]
  have hr2 : r.2 = h0 ++ nw := by rw [hr]; exact hnw
  rw [hnew]
  refine ⟨hr2, hcount, hfilter, hadj, e, he, by rw [hr], ?_⟩
  obtain ⟨tl, -, -, -, hdrv⟩ := executeSQLImp_shape conn.db sqls
    (attemptFlag skip (maxRetryCount - 1))
    (attemptStart conn sqls skip h0 (maxRetryCount - 1) ++ sleepBefore (maxRetryCount - 1))
  obtain ⟨d, rfl⟩ := hdrv e he
  rfl

/-- Witness for C2: three attempts on `dbExecFails`. -/
theorem executeSQL_bounded_retry_witness :
    (executeSQL 3 causeErrExample ⟨dbExecFails⟩ ["insert into t values (1);"] true true []).1
      = some (Err.trace (Err.driver (DriverErr.other "invalid connection")))
    ∧ ((executeSQL 3 causeErrExample ⟨dbExecFails⟩ ["insert into t values (1);"] true true
        []).2.drop ([] : Trace).length).filter isBeginOrSleep
      = [Event.begin, Event.sleep 2000000000, Event.begin, Event.sleep 4000000000,
          Event.begin] := by
  have hfail : ∀ j, j < 3 → ∃ e,
      (attemptResult ⟨dbExecFails⟩ ["insert into t values (1);"] true [] j).1 = some e
        ∧ isErrDupEntry causeErrExample (some e) = false := by
    intro j hj
    interval_cases j
    · exact ⟨Err.driver (DriverErr.other "invalid connection"), by decide, by decide⟩
    · exact ⟨Err.driver (DriverErr.other "invalid connection"), by decide, by decide⟩
    · exact ⟨Err.driver (DriverErr.other "invalid connection"), by decide, by decide⟩
  have h := executeSQL_bounded_retry 3 causeErrExample ⟨dbExecFails⟩
    ["insert into t values (1);"] true [] (by decide) (by decide) hfail
  obtain ⟨-, -, hsched, -, e, he, hr, -⟩ := h
  refine ⟨?_, by rw [hsched]; decide⟩
  rw [hr]
  have he2 : (attemptResult ⟨dbExecFails⟩ ["insert into t values (1);"] true [] (3 - 1)).1
      = some (Err.driver (DriverErr.other "invalid connection")) := by decide
  rw [he2] at he
  cases he
  rfl

/-- C1: for a non-empty statement list and an attempt `i` within the attempt budget, when
the attempts `0, ..., i-1` fail with errors that `isErrDupEntry` rejects and attempt `i`
fails with an error that `isErrDupEntry` accepts, `executeSQL` returns nil, the last
calls of its history are those of attempt `i`, and it has made `i + 1` attempts (`Begin`
calls) in all. -/
theorem executeSQL_dup_entry_is_success (maxRetryCount : Nat)
    (causeErr : Option Err → Option Err) (conn : Conn) (sqls : List String)
    (enableRetry skip : Bool) (h0 : Trace) (i : Nat)
    (hne : sqls ≠ [])
    (hi : i < (if enableRetry then maxRetryCount else 1))
    (hfail : ∀ j, j < i → ∃ e, (attemptResult conn sqls skip h0 j).1 = some e
      ∧ isErrDupEntry causeErr (some e) = false)
    (hdup : ∃ e, (attemptResult conn sqls skip h0 i).1 = some e
      ∧ isErrDupEntry causeErr (some e) = true) :
    let r := executeSQL maxRetryCount causeErr conn sqls enableRetry skip h0
    r.1 = none
    ∧ r.2 = (attemptResult conn sqls skip h0 i).2
    ∧ (r.2.drop h0.length).count Event.begin = i + 1 := by
  intro r
  obtain ⟨n, hn⟩ : ∃ n, (if enableRetry then maxRetryCount else 1) = i + (n + 1) :=
    ⟨(if enableRetry then maxRetryCount else 1) - i - 1, by omega⟩
  obtain ⟨sk, err, hsk, -, heq⟩ :=
    executeSQL_loop_unroll causeErr conn sqls skip h0 i (n + 1) hfail
  obtain ⟨e, he, hd⟩ := hdup
  have hflag : (if i > 0 then false else sk) = attemptFlag skip i := by
    by_cases hi0 : i > 0
    · simp [attemptFlag, hi0]
    · have : i = 0 := by omega
      simp [attemptFlag, hi0, hsk this]
  have hr : r = (none, attemptStart conn sqls skip h0 (i + 1)) := by
    have hlen : sqls.length ≠ 0 := by
      intro h
      exact hne (List.length_eq_zero.1 h)
    simp only [r, executeSQL, hlen, if_false]
    rw [hn, heq, executeSQL_loop_succ, hflag, attemptResult_eq conn sqls skip h0 i _ he]
    simp [hd]
  obtain ⟨nw, hnw, hcount, -, -, -⟩ := attemptStart_structure conn sqls skip h0 (i + 1)
  refine ⟨by rw [hr], by rw [hr]; rfl, ?_⟩
  rw [hr]
  simp [hnw, hcount]

/-- Witness for C1: on `dbDupOnThird` attempts 0 and 1 fail with a lost connection and
attempt 2 fails with a duplicate-entry error. -/
theorem executeSQL_dup_entry_is_success_witness :
    (executeSQL 5 causeErrExample ⟨dbDupOnThird⟩ ["a", "b"] true true []).1 = none
    ∧ (executeSQL 5 causeErrExample ⟨dbDupOnThird⟩ ["a", "b"] true true []).2
      = (attemptResult ⟨dbDupOnThird⟩ ["a", "b"] true [] 2).2
    ∧ ((executeSQL 5 causeErrExample ⟨dbDupOnThird⟩ ["a", "b"] true true []).2.drop
        ([] : Trace).length).count Event.begin = 2 + 1 :=
  executeSQL_dup_entry_is_success 5 causeErrExample ⟨dbDupOnThird⟩ ["a", "b"] true true [] 2
    (by decide) (by decide)
    (by
      intro j hj
      interval_cases j
      · exact ⟨Err.driver (DriverErr.other "invalid connection"), by decide, by decide⟩
      · exact ⟨Err.driver (DriverErr.other "invalid connection"), by decide, by decide⟩)
    ⟨Err.driver (DriverErr.mysqlError 1062 "Duplicate entry"), by decide, by decide⟩

/-- C7: with retries disabled `executeSQL` makes exactly one attempt, with the caller's
`skipConstraintCheck` and without sleeping; it returns nil if and only if that attempt
succeeded or failed with a duplicate-entry error, and otherwise it returns
`errors.Trace` of the attempt's error, whose cause is that error. -/
theorem executeSQL_no_retry_single_attempt (maxRetryCount : Nat)
    (causeErr : Option Err → Option Err) (conn : Conn) (sqls : List String)
    (skip : Bool) (h0 : Trace) (hne : sqls ≠ []) :
    let r := executeSQL maxRetryCount causeErr conn sqls false skip h0
    let a := executeSQLImp conn.db sqls skip h0
    let new := r.2.drop h0.length
    r.2 = a.2
    ∧ r.2 = h0 ++ new
    ∧ new.count Event.begin = 1
    ∧ (∀ d, Event.sleep d ∉ new)
    ∧ (r.1 = none ↔
        (a.1 = none ∨ ∃ e, a.1 = some e ∧ isErrDupEntry causeErr (some e) = true))
    ∧ (∀ e, a.1 = some e → isErrDupEntry causeErr (some e) = false →
        r.1 = some (Err.trace e) ∧ errors.Cause (Err.trace e) = e) := by
  intro r a new
  have hlen : sqls.length ≠ 0 := by
    intro h
    exact hne (List.length_eq_zero.1 h)
  obtain ⟨tail, htrace, htail, -, hdrv⟩ := executeSQLImp_shape conn.db sqls skip h0
  have hr : r = (match a.1 with
      | some e => if isErrDupEntry causeErr (some e) then none else some (Err.trace e)
      | none => none, a.2) := by
    simp only [r, executeSQL, hlen, if_false, Bool.false_eq_true]
    have h1 := executeSQL_loop_succ causeErr conn sqls 0 0 skip none h0
    rw [Nat.zero_add] at h1
    rw [h1]
    simp only [sleepBefore, gt_iff_lt, Nat.lt_irrefl, if_false, List.append_nil]
    show _ = (match (executeSQLImp conn.db sqls skip h0).1 with
      | some e => if isErrDupEntry causeErr (some e) then none else some (Err.trace e)
      | none => none, (executeSQLImp conn.db sqls skip h0).2)
    rcases hres : executeSQLImp conn.db sqls skip h0 with ⟨ea, ha⟩
    cases ea with
    | none => rfl
    | some e =>
      cases hd : isErrDupEntry causeErr (some e) <;> simp [hd, executeSQL.loop, errors.Trace]
  have hr2 : r.2 = h0 ++ Event.begin :: tail := by rw [hr]; exact htrace
  have hnew : new = Event.begin :: tail := by simp [new, hr2]
  refine ⟨by rw [hr], by rw [hnew]; exact hr2, ?_, ?_, ?_, ?_⟩
  · rw [hnew, List.count_cons_self, count_begin_tail tail htail]
  · intro d hm
    rw [hnew] at hm
    rcases List.mem_cons.1 hm with hx | hm
    · cases hx
    · have := htail _ hm
      simp [isBeginOrSleep] at this
  · rw [hr]
    cases hea : a.1 with
    | none => simp
    | some e =>
      cases hd : isErrDupEntry causeErr (some e) <;> simp [hd]
  · intro e hea hd
    obtain ⟨d, rfl⟩ := hdrv e hea
    rw [hr, hea]
    simp [hd, errors.Cause]

/-- Witness for C7: one attempt on `dbExecFails`, which fails with a lost connection. -/
theorem executeSQL_no_retry_single_attempt_witness :
    (executeSQL 10 causeErrExample ⟨dbExecFails⟩ ["a"] false true []).2
        = (executeSQLImp dbExecFails ["a"] true []).2
    ∧ (executeSQL 10 causeErrExample ⟨dbExecFails⟩ ["a"] false true []).1
        = some (Err.trace (Err.driver (DriverErr.other "invalid connection"))) := by
  have h := executeSQL_no_retry_single_attempt 10 causeErrExample ⟨dbExecFails⟩ ["a"] true []
    (by decide)
  exact ⟨h.1, (h.2.2.2.2.2 (Err.driver (DriverErr.other "invalid connection"))
    (by decide) (by decide)).1⟩

/-! ## The session statement of every attempt -/

theorem sessionStmtsOk_append (db : Database) (skip : Bool) (hist : Trace) (c : Nat)
    (a b : Trace) (ha : SessionStmtsOk db skip hist c a)
    (hb : SessionStmtsOk db skip (hist ++ a) (c + a.count Event.begin) b) :
    SessionStmtsOk db skip hist c (a ++ b) := by
  intro p hp hbeg
  by_cases h1 : p < a.length
  · rw [List.getElem?_append_left h1] at hp
    rw [List.take_append_of_le_length (by omega)] at hbeg ⊢
    have hnext := ha p hp hbeg
    have h2 : p + 1 < a.length := by
      by_contra hcon
      rw [List.getElem?_eq_none (by omega)] at hnext
      cases hnext
    rw [List.getElem?_append_left h2]
    exact hnext
  · rw [List.getElem?_append_right (by omega)] at hp
    have htake : (a ++ b).take p = a ++ b.take (p - a.length) := by
      rw [List.take_append_eq_append_take, List.take_of_length_le (by omega)]
    rw [htake, ← List.append_assoc] at hbeg
    have hnext := hb (p - a.length) hp hbeg
    rw [htake, List.getElem?_append_right (by omega), List.count_append, ← Nat.add_assoc]
    have : p + 1 - a.length = (p - a.length) + 1 := by omega
    rw [this]
    exact hnext

theorem sessionStmtsOk_of_no_begin (db : Database) (skip : Bool) (hist : Trace) (c : Nat)
    (l : Trace) (hl : Event.begin ∉ l) : SessionStmtsOk db skip hist c l := by
  intro p hp _
  exact absurd (List.getElem?_mem hp) hl

theorem sessionStmtsOk_block (db : Database) (skip : Bool) (hist : Trace) (c : Nat)
    (tail : Trace) (htail : ∀ ev ∈ tail, isBeginOrSleep ev = false)
    (hhead : db.begin hist = none →
      tail.head? = some (Event.exec (sessionStmt (skip && decide (c = 0))))) :
    SessionStmtsOk db skip hist c (Event.begin :: tail) := by
  intro p hp hbeg
  cases p with
  | zero =>
    simp only [List.take_zero, List.append_nil] at hbeg
    simp only [List.take_zero, List.count_nil, Nat.add_zero, Nat.zero_add,
      List.getElem?_cons_succ, ← List.head?_eq_getElem?]
    exact hhead hbeg
  | succ p =>
    exfalso
    rw [List.getElem?_cons_succ] at hp
    have := htail _ (List.getElem?_mem hp)
    simp [isBeginOrSleep] at this

theorem begin_not_mem_sleepBefore (i : Nat) : Event.begin ∉ sleepBefore i := by
  by_cases hi : i > 0 <;> simp [sleepBefore, hi]

/-- Whatever the database does, the loop of `executeSQL` keeps `SessionStmtsOk`; the calls
of its first iteration are the sleep and a call of `Begin`. -/
theorem executeSQL_loop_sessionStmts (causeErr : Option Err → Option Err) (conn : Conn)
    (sqls : List String) (skip : Bool) (h0 : Trace) :
    ∀ (n i : Nat) (sk : Bool) (err : Option Err) (new : Trace),
      SessionStmtsOk conn.db skip h0 0 new → new.count Event.begin = i → (i = 0 → sk = skip) →
      ∃ ext, (executeSQL.loop causeErr conn sqls n i sk err (h0 ++ new)).2 = h0 ++ (new ++ ext)
        ∧ SessionStmtsOk conn.db skip h0 0 (new ++ ext)
        ∧ (0 < n → ∃ tl, ext = sleepBefore i ++ Event.begin :: tl) := by
  intro n
  induction n with
  | zero =>
    intro i sk err new hok _ _
    exact ⟨[], by simp [executeSQL.loop], by simpa using hok, fun h => absurd h (by omega)⟩
  | succ n ih =>
    intro i sk err new hok hcount hsk
    obtain ⟨tail, htrace, htail, hhead, -⟩ := executeSQLImp_shape conn.db sqls
      (if i > 0 then false else sk) (h0 ++ new ++ sleepBefore i)
    have hflag : (if i > 0 then false else sk) = (skip && decide (0 + i + 0 = 0)) := by
      by_cases hi : i > 0
      · have : ¬ (i = 0) := by omega
        simp [hi, this]
      · have : i = 0 := by omega
        simp [this, hsk this]
    have hblock : SessionStmtsOk conn.db skip (h0 ++ new) (0 + i)
        (sleepBefore i ++ Event.begin :: tail) := by
      apply sessionStmtsOk_append
      · exact sessionStmtsOk_of_no_begin _ _ _ _ _ (begin_not_mem_sleepBefore i)
      · rw [count_begin_sleepBefore]
        apply sessionStmtsOk_block _ _ _ _ _ htail
        intro hb
        rw [← hflag]
        exact hhead hb
    have hok1 : SessionStmtsOk conn.db skip h0 0
        (new ++ (sleepBefore i ++ Event.begin :: tail)) := by
      apply sessionStmtsOk_append _ _ _ _ _ _ hok
      rw [hcount]
      exact hblock
    have hcount1 : (new ++ (sleepBefore i ++ Event.begin :: tail)).count Event.begin
        = i + 1 := by
      rw [List.count_append, List.count_append, hcount, count_begin_sleepBefore,
        List.count_cons_self, count_begin_tail tail htail]
    rw [executeSQL_loop_succ]
    rcases hres : executeSQLImp conn.db sqls (if i > 0 then false else sk)
      (h0 ++ new ++ sleepBefore i) with ⟨ea, h2⟩
    have h2eq : h2 = h0 ++ (new ++ (sleepBefore i ++ Event.begin :: tail)) := by
      have := htrace
      rw [hres] at this
      simpa using this
    subst h2eq
    have hstop : ∃ ext, h0 ++ (new ++ (sleepBefore i ++ Event.begin :: tail))
          = h0 ++ (new ++ ext)
        ∧ SessionStmtsOk conn.db skip h0 0 (new ++ ext)
        ∧ (0 < n + 1 → ∃ tl, ext = sleepBefore i ++ Event.begin :: tl) :=
      ⟨sleepBefore i ++ Event.begin :: tail, rfl, hok1, fun _ => ⟨tail, rfl⟩⟩
    cases ea with
    | none => exact hstop
    | some e =>
      cases hd : isErrDupEntry causeErr (some e) with
      | true => simpa [hd] using hstop
      | false =>
        obtain ⟨ext, hext, hokext, -⟩ := ih (i + 1) (if i > 0 then false else sk) (some e)
          (new ++ (sleepBefore i ++ Event.begin :: tail)) hok1 hcount1 (fun h => by omega)
        refine ⟨(sleepBefore i ++ Event.begin :: tail) ++ ext, ?_, ?_, ?_⟩
        · simp only [hd, Bool.not_false, if_true]
          rw [hext]
          simp
        · rw [← List.append_assoc]
          exact hokext
        · intro _
          exact ⟨tail ++ ext, by simp⟩

/-- C3: in the calls `new` made by `executeSQL` on a non-empty statement list, an attempt
is made as soon as the attempt budget is not zero; every successful `Begin` of attempt 0 (no
`Begin` before it) is directly followed by the session statement for the caller's
`skipConstraintCheck`, which is `"set @@session.tidb_skip_constraint_check=1;"` if and only
if `skipConstraintCheck` is true; and every successful `Begin` of an attempt `i >= 1` (at
least one `Begin` before it) is directly followed by
`"set @@session.tidb_skip_constraint_check=0;"`. -/
theorem executeSQL_session_stmt_per_attempt (maxRetryCount : Nat)
    (causeErr : Option Err → Option Err) (conn : Conn) (sqls : List String)
    (enableRetry skip : Bool) (h0 : Trace) (hne : sqls ≠ []) :
    let r := executeSQL maxRetryCount causeErr conn sqls enableRetry skip h0
    let new := r.2.drop h0.length
    r.2 = h0 ++ new
    ∧ ((enableRetry = false ∨ 1 ≤ maxRetryCount) → new[0]? = some Event.begin)
    ∧ (∀ p, new[p]? = some Event.begin → conn.db.begin (h0 ++ new.take p) = none →
        (new.take p).count Event.begin = 0 →
          new[p + 1]? = some (Event.exec (sessionStmt skip))
          ∧ (new[p + 1]? = some (Event.exec "set @@session.tidb_skip_constraint_check=1;")
              ↔ skip = true))
    ∧ (∀ p, new[p]? = some Event.begin → conn.db.begin (h0 ++ new.take p) = none →
        1 ≤ (new.take p).count Event.begin →
          new[p + 1]? = some (Event.exec "set @@session.tidb_skip_constraint_check=0;")) := by
  intro r new
  have hlen : sqls.length ≠ 0 := by
    intro h
    exact hne (List.length_eq_zero.1 h)
  obtain ⟨ext, hext, hok, hfirst⟩ := executeSQL_loop_sessionStmts causeErr conn sqls skip h0
    (if enableRetry then maxRetryCount else 1) 0 skip none []
    (sessionStmtsOk_of_no_begin _ _ _ _ _ (by simp)) rfl (fun _ => rfl)
  have hr2 : r.2 = h0 ++ ext := by
    simp only [r, executeSQL, hlen, if_false]
    simpa using hext
  have hnew : new = ext := by simp [new, hr2]
  rw [List.nil_append] at hok
  rw [hnew]
  refine ⟨hr2, ?_, ?_, ?_⟩
  · intro hbudget
    have hpos : 0 < (if enableRetry then maxRetryCount else 1) := by
      rcases hbudget with hb | hb
      · simp [hb]
      · by_cases he : enableRetry = true
        · simp [he]; omega
        · simp [he]
    obtain ⟨tl, htl⟩ := hfirst hpos
    rw [htl]
    simp [sleepBefore]
  · intro p hp hbeg hcount
    have hnext := hok p hp hbeg
    rw [hcount] at hnext
    simp only [Nat.add_zero, decide_True, Bool.and_true] at hnext
    refine ⟨hnext, ?_⟩
    rw [hnext]
    cases skip <;> simp [sessionStmt]
  · intro p hp hbeg hcount
    have hnext := hok p hp hbeg
    have hne0 : ¬ (0 + (ext.take p).count Event.begin = 0) := by omega
    simp only [hne0, decide_False, Bool.and_false] at hnext
    exact hnext

/-- Witness for C3: three attempts on `dbDupOnThird` with `skipConstraintCheck` set. -/
theorem executeSQL_session_stmt_per_attempt_witness :
    ((executeSQL 5 causeErrExample ⟨dbDupOnThird⟩ ["a", "b"] true true []).2.drop
        ([] : Trace).length)[0]? = some Event.begin
    ∧ ((executeSQL 5 causeErrExample ⟨dbDupOnThird⟩ ["a", "b"] true true []).2.drop
        ([] : Trace).length)[0 + 1]?
      = some (Event.exec "set @@session.tidb_skip_constraint_check=1;")
    ∧ ((executeSQL 5 causeErrExample ⟨dbDupOnThird⟩ ["a", "b"] true true []).2.drop
        ([] : Trace).length)[3 + 1]?
      = some (Event.exec "set @@session.tidb_skip_constraint_check=0;") := by
  have h := executeSQL_session_stmt_per_attempt 5 causeErrExample ⟨dbDupOnThird⟩ ["a", "b"]
    true true [] (by decide)
  exact ⟨h.2.1 (Or.inr (by decide)),
    ((h.2.2.1 0 (by decide) (by decide) (by decide)).2).2 rfl,
    h.2.2.2 3 (by decide) (by decide) (by decide)⟩

/-! ## Claims on `hasUniqIndex` and `truncateTable` -/

theorem hasUniqIndex_loop_ok (n : Nat) (hn : 2 ≤ n)
    (scans : List (Except DriverErr (List String)))
    (hscan : ∀ r ∈ scans, ∃ vals, r = Except.ok vals) :
    hasUniqIndex.loop n scans none = some (scans.any rowIsUnique, none) := by
  induction scans with
  | nil => rfl
  | cons scan rest ih =>
    obtain ⟨vals, rfl⟩ := hscan scan (List.mem_cons_self _ _)
    have hrest := ih (fun r hr => hscan r (List.mem_cons_of_mem _ hr))
    have hd : ((List.range n).map (fun i => vals.getD i ""))[1]? = some (vals.getD 1 "") := by
      rw [List.getElem?_map, List.getElem?_range (by omega)]
      rfl
    simp only [hasUniqIndex.loop, hd, List.any_cons, rowIsUnique]
    cases hv : vals[1]? with
    | none =>
      have : vals.getD 1 "" = "" := by simp [List.getD_eq_getElem?_getD, hv]
      rw [this, hrest]
      simp
    | some v =>
      have : vals.getD 1 "" = v := by simp [List.getD_eq_getElem?_getD, hv]
      rw [this, hrest]
      by_cases hv0 : v = "0"
      · simp [hv0]
      · simp [hv0]

/-- C6: for non-empty names, when the `show index` query on the route-resolved target
succeeds, the result set has at least two columns, every row scans without error and the
iteration ends without error, `hasUniqIndex` returns `(true, nil)` if and only if some row
has the string `"0"` in its second column, and `(false, nil)` otherwise. -/
theorem hasUniqIndex_iff_non_unique_zero {Router : Type}
    (fetchMatchedLiteral : Router → String → String → String × String)
    (conn : Conn) (schema table : String) (tableRouter : Router) (h : Trace)
    (rows : Rows) (cols : List String)
    (hs : schema ≠ "") (ht : table ≠ "")
    (hq : conn.db.query h ("show index from "
        ++ (fetchMatchedLiteral tableRouter schema table).1 ++ "."
        ++ (fetchMatchedLiteral tableRouter schema table).2) = Except.ok rows)
    (hc : rows.columns = Except.ok cols) (h2 : 2 ≤ cols.length)
    (hscan : ∀ r ∈ rows.scans, ∃ vals, r = Except.ok vals)
    (herr : rows.err = none) :
    let r := (hasUniqIndex fetchMatchedLiteral conn schema table tableRouter h).1
    (r = some (true, none)
      ↔ ∃ vals, Except.ok vals ∈ rows.scans ∧ vals[1]? = some "0")
    ∧ ((¬ ∃ vals, Except.ok vals ∈ rows.scans ∧ vals[1]? = some "0")
      → r = some (false, none)) := by
  intro r
  have hr : r = some (rows.scans.any rowIsUnique, none) := by
    simp only [r, hasUniqIndex, hs, ht, or_self, if_false, querySQL, hq, hc, herr]
    exact hasUniqIndex_loop_ok cols.length h2 rows.scans hscan
  have hany : rows.scans.any rowIsUnique = true
      ↔ ∃ vals, Except.ok vals ∈ rows.scans ∧ vals[1]? = some "0" := by
    rw [List.any_eq_true]
    constructor
    · rintro ⟨x, hx, hu⟩
      cases x with
      | error e => simp [rowIsUnique] at hu
      | ok vals => exact ⟨vals, hx, by simpa [rowIsUnique] using hu⟩
    · rintro ⟨vals, hx, hv⟩
      exact ⟨Except.ok vals, hx, by simp [rowIsUnique, hv]⟩
  rw [hr]
  constructor
  · rw [← hany]
    simp
  · intro hno
    rw [← hany] at hno
    have hf : rows.scans.any rowIsUnique = false := by
      cases hb : rows.scans.any rowIsUnique with
      | false => rfl
      | true => exact absurd hb hno
    rw [hf]

/-- Witness for C6: `showIndexRows` has a row of the primary key. -/
theorem hasUniqIndex_iff_non_unique_zero_witness :
    (hasUniqIndex identityRoute ⟨dbShowIndex⟩ "test" "t" () []).1 = some (true, none) :=
  (hasUniqIndex_iff_non_unique_zero identityRoute ⟨dbShowIndex⟩ "test" "t" () []
    showIndexRows ["Table", "Non_unique", "Key_name", "Seq_in_index", "Column_name"]
    (by decide) (by decide) rfl rfl (by decide)
    (by
      intro r hr
      simp only [showIndexRows, List.mem_cons, List.mem_singleton, List.not_mem_nil,
        or_false] at hr
      rcases hr with rfl | rfl
      · exact ⟨_, rfl⟩
      · exact ⟨_, rfl⟩)
    rfl).1.2 ⟨["t", "0", "PRIMARY", "1", "a"], by simp [showIndexRows], by decide⟩

/-- C10: when `schema` or `table` is empty, `hasUniqIndex` returns `(false, err)` and
`truncateTable` returns `err` with the message `"schema/table is empty"`, and both leave the
history unchanged (no query is issued); for non-empty names `truncateTable` issues the one
query `truncate table ...;` with the quoted names, followed at most by `rows.Close()`, and
returns an error if and only if that query fails. -/
theorem empty_names_rejected {Router : Type}
    (fetchMatchedLiteral : Router → String → String → String × String)
    (conn : Conn) (schema table : String) (tableRouter : Router) (h : Trace) :
    ((schema = "" ∨ table = "") →
      ∃ e1 e2,
        hasUniqIndex fetchMatchedLiteral conn schema table tableRouter h
          = (some (false, some e1), h)
        ∧ e1.Error = "schema/table is empty"
        ∧ truncateTable conn schema table h = (some e2, h)
        ∧ e2.Error = "schema/table is empty")
    ∧ (schema ≠ "" → table ≠ "" →
        (∃ rest, (truncateTable conn schema table h).2
            = h ++ Event.query ("truncate table `" ++ schema ++ "`.`" ++ table ++ "`;") :: rest
          ∧ ∀ ev ∈ rest, ev = Event.closeRows)
        ∧ ((truncateTable conn schema table h).1 ≠ none
          ↔ ∃ e, conn.db.query h ("truncate table `" ++ schema ++ "`.`" ++ table ++ "`;")
              = Except.error e)) := by
  constructor
  · intro hempty
    refine ⟨Err.new "schema/table is empty", Err.new "schema/table is empty", ?_, rfl, ?_, rfl⟩
    · simp only [hasUniqIndex, hempty, if_true]
    · simp only [truncateTable, hempty, if_true]
  · intro hs ht
    cases hq : conn.db.query h ("truncate table `" ++ schema ++ "`.`" ++ table ++ "`;") with
    | error e =>
      have hr : truncateTable conn schema table h
          = (some (Err.trace (Err.trace (Err.driver e))),
              h ++ [Event.query ("truncate table `" ++ schema ++ "`.`" ++ table ++ "`;")]) := by
        simp only [truncateTable, hs, ht, or_self, if_false, querySQL, hq, errors.Trace]
      rw [hr]
      exact ⟨⟨[], rfl, by simp⟩, by simp⟩
    | ok rows =>
      have hr : truncateTable conn schema table h
          = (none, h ++ [Event.query ("truncate table `" ++ schema ++ "`.`" ++ table ++ "`;")]
              ++ [Event.closeRows]) := by
        simp only [truncateTable, hs, ht, or_self, if_false, querySQL, hq]
      rw [hr]
      exact ⟨⟨[Event.closeRows], by simp, by simp⟩, by simp⟩

/-- Witness for C10: an empty schema name, and the table `test.t` on a database whose
queries fail. -/
theorem empty_names_rejected_witness :
    (∃ e1 e2,
        hasUniqIndex identityRoute ⟨dbQueryFails⟩ "" "t" () [] = (some (false, some e1), [])
        ∧ e1.Error = "schema/table is empty"
        ∧ truncateTable ⟨dbQueryFails⟩ "" "t" [] = (some e2, [])
        ∧ e2.Error = "schema/table is empty")
    ∧ (truncateTable ⟨dbQueryFails⟩ "test" "t" []).1 ≠ none :=
  ⟨(empty_names_rejected identityRoute ⟨dbQueryFails⟩ "" "t" () []).1 (Or.inl rfl),
    (((empty_names_rejected identityRoute ⟨dbQueryFails⟩ "test" "t" () []).2
      (by decide) (by decide)).2).2 ⟨DriverErr.other "invalid connection", rfl⟩⟩

/-! ## Claims on `createConns` -/

theorem createConn_trace (sqlOpen : Trace → String → String → Except DriverErr Database)
    (cfg : DBConfig) (h : Trace) :
    (createConn sqlOpen cfg h).2 = h ++ [openEvent cfg] := by
  unfold createConn
  cases sqlOpen h "mysql" (createConn.dbDSN cfg) <;> rfl

theorem append_replicate_succ (h : Trace) (ev : Event) (i : Nat) :
    h ++ List.replicate (i + 1) ev = (h ++ [ev]) ++ List.replicate i ev := by
  simp [List.replicate_succ]

theorem createConns_loop_success (sqlOpen : Trace → String → String → Except DriverErr Database)
    (cfg : DBConfig) (n : Nat) :
    ∀ (acc : List Conn) (h : Trace),
      (∀ i, i < n → ∃ c,
        (createConn sqlOpen cfg (h ++ List.replicate i (openEvent cfg))).1 = Except.ok c) →
      ∃ conns, createConns.loop sqlOpen cfg n acc h
          = ((some (acc ++ conns), none), h ++ List.replicate n (openEvent cfg))
        ∧ conns.length = n
        ∧ ∀ i c, conns[i]? = some c →
          (createConn sqlOpen cfg (h ++ List.replicate i (openEvent cfg))).1 = Except.ok c := by
  induction n with
  | zero =>
    intro acc h _
    exact ⟨[], by simp [createConns.loop], rfl, by simp⟩
  | succ n ih =>
    intro acc h hall
    obtain ⟨c0, hc0⟩ := hall 0 (Nat.succ_pos n)
    rw [List.replicate_zero, List.append_nil] at hc0
    have htr := createConn_trace sqlOpen cfg h
    obtain ⟨conns, hloop, hlen, hget⟩ := ih (acc ++ [c0]) (h ++ [openEvent cfg]) (by
      intro i hi
      rw [← append_replicate_succ]
      exact hall (i + 1) (by omega))
    refine ⟨c0 :: conns, ?_, by simp [hlen], ?_⟩
    · rcases hres : createConn sqlOpen cfg h with ⟨res, h1⟩
      rw [hres] at hc0 htr
      simp only at hc0 htr
      subst hc0 htr
      simp only [createConns.loop, hres, hloop, append_replicate_succ]
      simp
    · intro i c hic
      cases i with
      | zero =>
        simp at hic
        subst hic
        simpa using hc0
      | succ i =>
        rw [append_replicate_succ]
        exact hget i c (by simpa using hic)

theorem createConns_loop_failure (sqlOpen : Trace → String → String → Except DriverErr Database)
    (cfg : DBConfig) (n : Nat) :
    ∀ (acc : List Conn) (h : Trace) (i : Nat) (e : Err), i < n →
      (∀ j, j < i → ∃ c,
        (createConn sqlOpen cfg (h ++ List.replicate j (openEvent cfg))).1 = Except.ok c) →
      (createConn sqlOpen cfg (h ++ List.replicate i (openEvent cfg))).1 = Except.error e →
      createConns.loop sqlOpen cfg n acc h
        = ((none, some (Err.trace e)), h ++ List.replicate (i + 1) (openEvent cfg)) := by
  induction n with
  | zero => intro acc h i e hi; omega
  | succ n ih =>
    intro acc h i e hi hok hfail
    have htr := createConn_trace sqlOpen cfg h
    rcases hres : createConn sqlOpen cfg h with ⟨res, h1⟩
    rw [hres] at htr
    simp only at htr
    subst htr
    cases i with
    | zero =>
      rw [List.replicate_zero, List.append_nil, hres] at hfail
      simp only at hfail
      subst hfail
      simp [createConns.loop, hres, errors.Trace]
    | succ i =>
      obtain ⟨c0, hc0⟩ := hok 0 (Nat.succ_pos i)
      rw [List.replicate_zero, List.append_nil, hres] at hc0
      simp only at hc0
      subst hc0
      have := ih (acc ++ [c0]) (h ++ [openEvent cfg]) i e (by omega)
        (by
          intro j hj
          rw [← append_replicate_succ]
          exact hok (j + 1) (by omega))
        (by rw [← append_replicate_succ]; exact hfail)
      simp only [createConns.loop, hres, this, append_replicate_succ]

/-- C8: `createConns` opens the connections one after the other with `createConn` on the
same configuration.  When all `count` calls succeed it returns the `count` connections of
these calls, in order, and a nil error, after exactly `count` calls of `sql.Open` with the
data source name of the configuration.  When call `i` is the first to fail, with error `e`,
it returns the nil slice and `errors.Trace(e)`, whose cause is the error of `sql.Open`, and
makes no call after call `i`. -/
theorem createConns_all_or_nothing
    (sqlOpen : Trace → String → String → Except DriverErr Database)
    (cfg : DBConfig) (count : Nat) (h : Trace) :
    ((∀ i, i < count → ∃ c,
        (createConn sqlOpen cfg (h ++ List.replicate i (openEvent cfg))).1 = Except.ok c) →
      ∃ conns, createConns sqlOpen cfg count h
          = ((some conns, none), h ++ List.replicate count (openEvent cfg))
        ∧ conns.length = count
        ∧ ∀ i c, conns[i]? = some c →
          (createConn sqlOpen cfg (h ++ List.replicate i (openEvent cfg))).1 = Except.ok c)
    ∧ (∀ i e, i < count →
        (∀ j, j < i → ∃ c,
          (createConn sqlOpen cfg (h ++ List.replicate j (openEvent cfg))).1 = Except.ok c) →
        (createConn sqlOpen cfg (h ++ List.replicate i (openEvent cfg))).1 = Except.error e →
        createConns sqlOpen cfg count h
            = ((none, some (Err.trace e)), h ++ List.replicate (i + 1) (openEvent cfg))
          ∧ ∃ d, sqlOpen (h ++ List.replicate i (openEvent cfg)) "mysql" (createConn.dbDSN cfg)
                = Except.error d
              ∧ errors.Cause (Err.trace e) = Err.driver d) := by
  constructor
  · intro hall
    obtain ⟨conns, hloop, hlen, hget⟩ := createConns_loop_success sqlOpen cfg count [] h hall
    exact ⟨conns, by simpa [createConns] using hloop, hlen, hget⟩
  · intro i e hi hok hfail
    refine ⟨createConns_loop_failure sqlOpen cfg count [] h i e hi hok hfail, ?_⟩
    unfold createConn at hfail
    cases hopen : sqlOpen (h ++ List.replicate i (openEvent cfg)) "mysql"
        (createConn.dbDSN cfg) with
    | error d =>
      rw [hopen] at hfail
      simp only [Except.error.injEq] at hfail
      subst hfail
      exact ⟨d, rfl, rfl⟩
    | ok db =>
      rw [hopen] at hfail
      cases hfail

/-- Witness for C8: three connections from `sqlOpenOk`, and five requested from
`sqlOpenFailsThird`, where the third call fails. -/
theorem createConns_all_or_nothing_witness :
    (∃ conns, createConns sqlOpenOk defaultDBConfig 3 []
        = ((some conns, none), [] ++ List.replicate 3 (openEvent defaultDBConfig))
      ∧ conns.length = 3
      ∧ ∀ i c, conns[i]? = some c →
        (createConn sqlOpenOk defaultDBConfig
          ([] ++ List.replicate i (openEvent defaultDBConfig))).1 = Except.ok c)
    ∧ createConns sqlOpenFailsThird defaultDBConfig 5 []
      = ((none, some (Err.trace (Err.trace (Err.driver (DriverErr.other "sql: unknown driver"))))),
          [] ++ List.replicate (2 + 1) (openEvent defaultDBConfig)) :=
  ⟨(createConns_all_or_nothing sqlOpenOk defaultDBConfig 3 []).1 (fun _ _ => ⟨_, rfl⟩),
    ((createConns_all_or_nothing sqlOpenFailsThird defaultDBConfig 5 []).2 2
      (Err.trace (Err.driver (DriverErr.other "sql: unknown driver"))) (by decide)
      (by
        intro j hj
        interval_cases j
        · exact ⟨_, rfl⟩
        · exact ⟨_, rfl⟩)
      rfl).1⟩

end Loader
